import Mathlib

set_option maxHeartbeats 4000000
set_option maxRecDepth 100000

/-!
Shallow embedding of the write-request observability pipeline of the
posthog-rnd repository (`src/backend/libs/posthog/src/posthog.service.ts` and
`posthog.controller.ts`), together with proofs settling the frozen claims
about it.

JSON-like runtime values are modelled by the inductive type `Json`
(JS numbers are modelled as integers; `undefined` is modelled as `Option.none`
where a value may be absent).  Property access on arrays and strings is
modelled for canonical numeric indices (non-index properties such as `length`
or methods are not modelled).  `Date` objects and wall-clock time are not
modelled; timestamp properties are threaded through as opaque `Json` values.
-/

namespace PosthogRnd

/-- JSON-like JavaScript values: the payloads flowing through the pipeline. -/
inductive Json where
  | null
  | bool (b : Bool)
  | num (n : Int)
  | str (s : String)
  | arr (elems : List Json)
  | obj (fields : List (String × Json))
  deriving Repr

/-- JavaScript truthiness of a value (`null`, `false`, `0`, `""` are falsy). -/
def truthy : Json → Bool
  | .null => false
  | .bool b => b
  | .num n => n != 0
  | .str s => s != ""
  | .arr _ => true
  | .obj _ => true

/-- Truthiness of a possibly-absent value (`undefined` is falsy). -/
def truthyOpt : Option Json → Bool
  | none => false
  | some v => truthy v

/-- Escape one character as inside a JSON string literal. -/
def escapeChar (c : Char) : String :=
  if c = '"' then "\\\""
  else if c = '\\' then "\\\\"
  else if c = '\n' then "\\n"
  else if c = '\t' then "\\t"
  else if c = '\r' then "\\r"
  else String.singleton c

/-- A JSON string literal with surrounding quotes, as `JSON.stringify` prints it. -/
def escapeString (s : String) : String :=
  "\"" ++ String.mk (s.data.flatMap fun c => (escapeChar c).data) ++ "\""

mutual

/-- `JSON.stringify` on a defined value. -/
def stringify : Json → String
  | .null => "null"
  | .bool true => "true"
  | .bool false => "false"
  | .num n => toString n
  | .str s => escapeString s
  | .arr xs => "[" ++ stringifyElems xs ++ "]"
  | .obj fs => "\x7b" ++ stringifyFields fs ++ "\x7d"

/-- Comma-separated serialization of array elements. -/
def stringifyElems : List Json → String
  | [] => ""
  | [x] => stringify x
  | x :: y :: rest => stringify x ++ "," ++ stringifyElems (y :: rest)

/-- Comma-separated serialization of object fields. -/
def stringifyFields : List (String × Json) → String
  | [] => ""
  | [(k, v)] => escapeString k ++ ":" ++ stringify v
  | (k, v) :: f :: rest => escapeString k ++ ":" ++ stringify v ++ "," ++ stringifyFields (f :: rest)

end

/-- `JSON.stringify` lifted to possibly-absent values
(`JSON.stringify(undefined)` is `undefined`). -/
def stringifyOpt : Option Json → Option String :=
  Option.map stringify

/-- First value bound to `key` in an object's field list (JS objects have
unique keys, so this is the value of the property when the list is well
formed). -/
def lookupField : List (String × Json) → String → Option Json
  | [], _ => none
  | (k, v) :: rest, key => if k = key then some v else lookupField rest key

/-- `Object.keys(v)`: own enumerable keys — field names for objects, canonical
indices for arrays and strings, nothing for primitives. -/
def jsKeys : Json → List String
  | .obj fs => fs.map Prod.fst
  | .arr xs => (List.range xs.length).map toString
  | .str s => (List.range s.length).map toString
  | _ => []

/-- Optional-chained property access `v?.[key]` (canonical numeric indices for
arrays and strings; `undefined` is `none`). -/
def jsGet : Json → String → Option Json
  | .obj fs, key => lookupField fs key
  | .arr xs, key =>
      match key.toNat? with
      | some i => if toString i = key then xs[i]? else none
      | none => none
  | .str s, key =>
      match key.toNat? with
      | some i =>
          if toString i = key then (s.data[i]?).map (fun c => .str (String.singleton c))
          else none
      | none => none
  | _, _ => none

/-- `v || {}`: the value itself when truthy, otherwise an empty object. -/
def jsOrEmptyObj (v : Json) : Json :=
  if truthy v then v else .obj []

/-- Append a key unless already present (JS `Set` insertion order). -/
def insertKey (acc : List String) (k : String) : List String :=
  if k ∈ acc then acc else acc ++ [k]

/-- `[...new Set(keys)]`: deduplicate preserving first occurrences. -/
def dedupKeys (ks : List String) : List String :=
  ks.foldl insertKey []

/-- One entry of the diff object `deepDiff` builds for a key. -/
inductive DiffNode where
  | added (value : Json)
  | removed (value : Json)
  | changed (previous current : Json)
  | nested (children : List (String × DiffNode))
  deriving Repr

/-- Structural size of a value, used to justify `deepDiff`'s termination. -/
def jsize : Json → Nat
  | .null => 1
  | .bool _ => 1
  | .num _ => 1
  | .str _ => 1
  | .arr xs => 1 + jsizeElems xs
  | .obj fs => 1 + jsizeFields fs
where
  /-- Total size of array elements. -/
  jsizeElems : List Json → Nat
    | [] => 0
    | x :: rest => jsize x + jsizeElems rest
  /-- Total size of object field values. -/
  jsizeFields : List (String × Json) → Nat
    | [] => 0
    | (_, v) :: rest => jsize v + jsizeFields rest

theorem lookupField_jsize {fs : List (String × Json)} {key : String} {v : Json}
    (h : lookupField fs key = some v) : jsize v ≤ jsize.jsizeFields fs := by
  induction fs with
  | nil => simp [lookupField] at h
  | cons f rest ih =>
    obtain ⟨k, w⟩ := f
    simp only [lookupField] at h
    split at h
    · cases h
      simp only [jsize.jsizeFields]
      omega
    · have := ih h
      simp only [jsize.jsizeFields]
      omega

theorem getElem?_jsize {xs : List Json} {i : Nat} {v : Json}
    (h : xs[i]? = some v) : jsize v ≤ jsize.jsizeElems xs := by
  induction xs generalizing i with
  | nil => simp at h
  | cons x rest ih =>
    cases i with
    | zero =>
      simp at h
      subst h
      simp only [jsize.jsizeElems]
      omega
    | succ j =>
      simp at h
      have := ih h
      simp only [jsize.jsizeElems]
      omega

/-- A property access producing an object yields a strictly smaller value. -/
theorem jsGet_obj_jsize {p : Json} {key : String} {fs : List (String × Json)}
    (h : jsGet p key = some (.obj fs)) : jsize (.obj fs) < jsize p := by
  cases p with
  | obj pf =>
    have := @lookupField_jsize pf key (.obj fs) h
    simp only [jsize] at this ⊢
    omega
  | arr xs =>
    simp only [jsGet] at h
    cases hk : key.toNat? with
    | none => simp [hk] at h
    | some i =>
      simp only [hk] at h
      by_cases hi : toString i = key
      · simp only [if_pos hi] at h
        have := getElem?_jsize h
        simp only [jsize] at this ⊢
        omega
      · simp [if_neg hi] at h
  | str s =>
    simp only [jsGet] at h
    cases hk : key.toNat? with
    | none => simp [hk] at h
    | some i =>
      simp only [hk] at h
      by_cases hi : toString i = key
      · simp [if_pos hi] at h
      · simp [if_neg hi] at h
  | null => simp [jsGet] at h
  | bool b => simp [jsGet] at h
  | num n => simp [jsGet] at h

/-- `deepDiff(prev, curr)` from `posthog.service.ts` (lines 751–779): union the
key sets of `prev || {}` and `curr || {}`; a key present on only one side is
`added`/`removed`; when serializations differ, two plain objects are diffed
recursively (an empty nested diff is dropped) and anything else becomes
`changed(previous, current)`. -/
def deepDiff (prev curr : Json) : List (String × DiffNode) :=
  let allKeys := dedupKeys (jsKeys (jsOrEmptyObj prev) ++ jsKeys (jsOrEmptyObj curr))
  allKeys.filterMap fun key =>
    match hp : jsGet prev key, hc : jsGet curr key with
    | none, some v => some (key, .added v)
    | some v, none => some (key, .removed v)
    | none, none => none
    | some (Json.obj pf), some (Json.obj cf) =>
        if stringify (Json.obj pf) = stringify (Json.obj cf) then none
        else
          let nestedDiff := deepDiff (Json.obj pf) (Json.obj cf)
          if nestedDiff.isEmpty then none else some (key, .nested nestedDiff)
    | some pv, some cv =>
        if stringify pv = stringify cv then none
        else some (key, .changed pv cv)
termination_by jsize prev + jsize curr
decreasing_by
  have h1 := jsGet_obj_jsize hp
  have h2 := jsGet_obj_jsize hc
  omega

/-- `str.substring(0, n)` on a JS string. -/
def jsSubstring (s : String) (n : Nat) : String :=
  String.mk (s.data.take n)

/-- Skip JSON whitespace. -/
def skipWs : List Char → List Char
  | c :: rest =>
      if c = ' ' ∨ c = '\n' ∨ c = '\t' ∨ c = '\r' then skipWs rest else c :: rest
  | [] => []

/-- Consume a maximal run of decimal digits. -/
def takeDigits : List Char → (List Char × List Char)
  | c :: rest =>
      if c.isDigit then
        let (ds, rest2) := takeDigits rest
        (c :: ds, rest2)
      else ([], c :: rest)
  | [] => ([], [])

/-- Whether a character is a hexadecimal digit. -/
def isHexDigit (c : Char) : Bool :=
  c.isDigit ∨ ('a' ≤ c ∧ c ≤ 'f') ∨ ('A' ≤ c ∧ c ≤ 'F')

/-- Hexadecimal value of a digit. -/
def hexVal (c : Char) : Nat :=
  if c.isDigit then c.toNat - '0'.toNat
  else if 'a' ≤ c ∧ c ≤ 'f' then c.toNat - 'a'.toNat + 10
  else if 'A' ≤ c ∧ c ≤ 'F' then c.toNat - 'A'.toNat + 10
  else 0

/-- The character denoted by a `\uXXXX` escape. -/
def hexChar (a b c d : Char) : Char :=
  Char.ofNat (((hexVal a * 16 + hexVal b) * 16 + hexVal c) * 16 + hexVal d)

/-- Parse the body of a JSON string literal after the opening quote,
accumulating characters in reverse; fails on an unterminated literal or a bad
escape. -/
def parseStringBody : List Char → List Char → Option (String × List Char)
  | [], _ => none
  | '"' :: rest, acc => some (String.mk acc.reverse, rest)
  | '\\' :: esc :: rest, acc =>
      if esc = '"' then parseStringBody rest ('"' :: acc)
      else if esc = '\\' then parseStringBody rest ('\\' :: acc)
      else if esc = '/' then parseStringBody rest ('/' :: acc)
      else if esc = 'n' then parseStringBody rest ('\n' :: acc)
      else if esc = 't' then parseStringBody rest ('\t' :: acc)
      else if esc = 'r' then parseStringBody rest ('\r' :: acc)
      else if esc = 'b' then parseStringBody rest ('\x08' :: acc)
      else if esc = 'f' then parseStringBody rest ('\x0c' :: acc)
      else if esc = 'u' then
        match rest with
        | a :: b :: c :: d :: rest2 =>
            if isHexDigit a ∧ isHexDigit b ∧ isHexDigit c ∧ isHexDigit d then
              parseStringBody rest2 (hexChar a b c d :: acc)
            else none
        | _ => none
      else none
  | ['\\'], _ => none
  | c :: rest, acc =>
      if c.toNat < 32 then none else parseStringBody rest (c :: acc)

/-- Parse the exponent digits after `e`/`E` (the numeric value of a JSON
number is modelled by its integer part; fraction and exponent are consumed
per the grammar but not applied). -/
def parseExpDigits (val : Int) (cs : List Char) : Option (Json × List Char) :=
  let cs1 :=
    match cs with
    | '+' :: r => r
    | '-' :: r => r
    | _ => cs
  let (ds, rest) := takeDigits cs1
  if ds.isEmpty then none else some (.num val, rest)

/-- Parse an optional exponent part. -/
def parseExpPart (val : Int) (cs : List Char) : Option (Json × List Char) :=
  match cs with
  | 'e' :: rest => parseExpDigits val rest
  | 'E' :: rest => parseExpDigits val rest
  | _ => some (.num val, cs)

/-- Parse a JSON number. -/
def parseNumber (cs : List Char) : Option (Json × List Char) :=
  let (neg, cs1) :=
    match cs with
    | '-' :: rest => (true, rest)
    | _ => (false, cs)
  let (ds, cs2) := takeDigits cs1
  if ds.isEmpty then none
  else if ds.length > 1 ∧ ds.headD '0' = '0' then none
  else
    let intPart : Nat := ds.foldl (fun acc c => acc * 10 + (c.toNat - '0'.toNat)) 0
    let val : Int := if neg then -(Int.ofNat intPart) else Int.ofNat intPart
    match cs2 with
    | '.' :: rest =>
        let (fs, rest2) := takeDigits rest
        if fs.isEmpty then none else parseExpPart val rest2
    | _ => parseExpPart val cs2

mutual

/-- Parse one JSON value (fuel-bounded mutual recursion; the top level supplies
fuel exceeding any possible amount of recursion for the input). -/
def parseValue : Nat → List Char → Option (Json × List Char)
  | 0, _ => none
  | fuel + 1, cs =>
      match skipWs cs with
      | 'n' :: 'u' :: 'l' :: 'l' :: rest => some (.null, rest)
      | 't' :: 'r' :: 'u' :: 'e' :: rest => some (.bool true, rest)
      | 'f' :: 'a' :: 'l' :: 's' :: 'e' :: rest => some (.bool false, rest)
      | '"' :: rest => (parseStringBody rest []).map fun p => (Json.str p.1, p.2)
      | '[' :: rest =>
          match skipWs rest with
          | ']' :: rest2 => some (.arr [], rest2)
          | cs2 => (parseItems fuel cs2 []).map fun p => (Json.arr p.1, p.2)
      | '{' :: rest =>
          match skipWs rest with
          | '}' :: rest2 => some (.obj [], rest2)
          | cs2 => (parseMembers fuel cs2 []).map fun p => (Json.obj p.1, p.2)
      | c :: rest => if c = '-' ∨ c.isDigit then parseNumber (c :: rest) else none
      | [] => none

/-- Parse array items, positioned at an item. -/
def parseItems : Nat → List Char → List Json → Option (List Json × List Char)
  | 0, _, _ => none
  | fuel + 1, cs, acc =>
      match parseValue fuel cs with
      | none => none
      | some (v, rest) =>
          match skipWs rest with
          | ',' :: rest2 => parseItems fuel rest2 (acc ++ [v])
          | ']' :: rest2 => some (acc ++ [v], rest2)
          | _ => none

/-- Parse object members, positioned at a member key. -/
def parseMembers : Nat → List Char → List (String × Json) →
    Option (List (String × Json) × List Char)
  | 0, _, _ => none
  | fuel + 1, cs, acc =>
      match skipWs cs with
      | '"' :: rest =>
          match parseStringBody rest [] with
          | none => none
          | some (key, rest2) =>
              match skipWs rest2 with
              | ':' :: rest3 =>
                  match parseValue fuel rest3 with
                  | none => none
                  | some (v, rest4) =>
                      match skipWs rest4 with
                      | ',' :: rest5 => parseMembers fuel rest5 (acc ++ [(key, v)])
                      | '}' :: rest5 => some (acc ++ [(key, v)], rest5)
                      | _ => none
              | _ => none
      | _ => none

end

/-- `JSON.parse(s)`: `Except.error` models the thrown `SyntaxError`. -/
def jsonParse (s : String) : Except String Json :=
  match parseValue (s.length * 2 + 8) s.data with
  | some (v, rest) =>
      if (skipWs rest).isEmpty then .ok v else .error "Unexpected token in JSON"
  | none => .error "Unexpected end of JSON input"

/-- Lowercase a string character-wise (`key.toLowerCase()` for the ASCII
header names involved). -/
def lowerString (s : String) : String :=
  String.mk (s.data.map Char.toLower)

/-- `{...body}`: own enumerable properties of a value as a fresh plain
object's field list (spreading a primitive other than a string contributes no
fields). -/
def jsSpread : Json → List (String × Json)
  | .obj fs => fs
  | .arr xs => xs.enum.map fun p => (toString p.1, p.2)
  | .str s => s.data.enum.map fun p => (toString p.1, Json.str (String.singleton p.2))
  | _ => []

/-- JS assignment `o[key] = v`: update the (unique) existing binding in place,
or append the property when absent. -/
def setField : List (String × Json) → String → Json → List (String × Json)
  | [], key, v => [(key, v)]
  | (k, w) :: rest, key, v =>
      if k = key then (k, v) :: rest else (k, w) :: setField rest key v

/-- One iteration of the redaction loop:
`if (sanitized[field]) sanitized[field] = '[REDACTED]'`. -/
def redactStep (acc : List (String × Json)) (field : String) : List (String × Json) :=
  if truthyOpt (lookupField acc field) then setField acc field (.str "[REDACTED]") else acc

/-- The redaction loop shared by both `sanitizeBody` implementations:
`for (field of sensitive) if (obj[field]) obj[field] = '[REDACTED]'`. -/
def redactFields (sensitive : List String) (fields : List (String × Json)) :
    List (String × Json) :=
  sensitive.foldl redactStep fields

/-- C3: for every serializable value `a` (leaf, array, or arbitrarily nested
object alike), `deepDiff a a` is the empty diff — no `DiffNode` is
produced. -/
theorem deepDiff_self (a : Json) : deepDiff a a = [] := by
  unfold deepDiff
  rw [List.filterMap_eq_nil_iff]
  intro key _
  cases h : jsGet a key with
  | none => simp [h]
  | some v =>
    cases v <;> simp [h]

namespace PosthogService

/-- Field names redacted by `PosthogService.sanitizeBody` (line 260). -/
def sensitiveFields : List String :=
  ["password", "token", "secret", "apiKey", "apikey", "access_token"]

/-- Header names redacted by `PosthogService.sanitizeHeaders` (line 240). -/
def sensitiveHeaders : List String :=
  ["authorization", "cookie", "x-api-key", "x-session-id"]

/-- `sanitizeBody(body)` from `posthog.service.ts` lines 257–276: `null` on a
falsy body; otherwise spread the body, redact truthy sensitive fields, and if
the serialization exceeds 1000 characters run `JSON.parse` on the truncated
serialization plus `"..."` (which can throw, modelled by `Except.error`). -/
def sanitizeBody (body : Json) : Except String Json :=
  if !truthy body then .ok .null
  else
    let sanitized := redactFields sensitiveFields (jsSpread body)
    let bodyStr := stringify (.obj sanitized)
    if bodyStr.length > 1000 then jsonParse (jsSubstring bodyStr 1000 ++ "...")
    else .ok (.obj sanitized)

/-- `sanitizeHeaders(headers)` from lines 237–252: rebuild the object redacting
headers whose lowercased name is in the sensitive set. -/
def sanitizeHeaders (headers : Json) : Json :=
  if !truthy headers then .null
  else
    .obj ((jsSpread headers).map fun p =>
      (p.1, if lowerString p.1 ∈ sensitiveHeaders then Json.str "[REDACTED]" else p.2))

/-- `sanitizeResponse(data)` from lines 784–795: passthrough up to 2000
serialized characters, otherwise a `{_truncated, _size, preview}` marker whose
preview is `JSON.parse` of the truncated serialization plus `"..."` (which can
throw, modelled by `Except.error`). -/
def sanitizeResponse (data : Json) : Except String Json :=
  if !truthy data then .ok .null
  else
    let dataStr := stringify data
    if dataStr.length > 2000 then
      (jsonParse (jsSubstring dataStr 2000 ++ "...")).map fun preview =>
        .obj [("_truncated", .bool true), ("_size", .num dataStr.length),
              ("preview", preview)]
    else .ok data

end PosthogService

/-- A request body whose sanitized serialization exceeds 1000 characters:
`{"a":"xx…x"}` with a 1000-character string value (1008 characters
serialized). -/
def bigBody : Json :=
  .obj [("a", .str (String.mk (List.replicate 1000 'x')))]

/-- A response whose serialization exceeds 2000 characters. -/
def bigResponse : Json :=
  .obj [("a", .str (String.mk (List.replicate 2000 'x')))]

/-- C1: the spec claims `sanitizeBody` is total and never raises, truncating
oversized payloads to a marked value; in fact, for any body whose sanitized
serialization exceeds 1000 characters, the code runs `JSON.parse` on a
truncated serialization ending in `"..."`, which is never valid JSON, so the
call throws a `SyntaxError` instead of returning — likewise `sanitizeResponse`
past its 2000-character threshold.  (The null passthrough conjuncts do hold.)
This theorem evaluates the code at such failing inputs. -/
theorem sanitizeBody_truncation_throws :
    (PosthogService.sanitizeBody bigBody).isOk = false
    ∧ (PosthogService.sanitizeResponse bigResponse).isOk = false
    ∧ PosthogService.sanitizeBody .null = .ok .null
    ∧ PosthogService.sanitizeResponse .null = .ok .null := by
  refine ⟨?_, ?_, rfl, rfl⟩ <;> rfl

/-- The redaction marker is truthy. -/
theorem truthy_redacted : truthy (Json.str "[REDACTED]") = true := rfl

/-- Redacting for an absent key changes nothing, pointwise. -/
theorem map_redactOne_not_mem {rest : List (String × Json)} {s : String}
    (h : s ∉ rest.map Prod.fst) :
    (rest.map fun p =>
        if p.1 = s ∧ truthy p.2 then (p.1, Json.str "[REDACTED]") else p) = rest := by
  induction rest with
  | nil => rfl
  | cons f r ih =>
    simp only [List.map_cons, List.mem_cons] at h
    push_neg at h
    have hne : ¬(f.1 = s ∧ truthy f.2) := fun hc => h.1 hc.1.symm
    simp [hne, ih h.2]

/-- One redaction-loop iteration on an object with distinct keys updates
exactly the truthy entry at that key. -/
theorem redactStep_eq {fields : List (String × Json)} {s : String}
    (hnd : (fields.map Prod.fst).Nodup) :
    redactStep fields s
      = fields.map fun p =>
          if p.1 = s ∧ truthy p.2 then (p.1, Json.str "[REDACTED]") else p := by
  induction fields with
  | nil => rfl
  | cons f rest ih =>
    obtain ⟨k, w⟩ := f
    simp only [List.map_cons, List.nodup_cons] at hnd
    obtain ⟨hk_not, hnd_rest⟩ := hnd
    by_cases hk : k = s
    · subst hk
      by_cases hw : truthy w
      · simp only [redactStep, lookupField, if_pos rfl, truthyOpt, hw, setField,
          List.map_cons]
        rw [map_redactOne_not_mem hk_not]
        simp [hw]
      · simp only [redactStep, lookupField, if_pos rfl, truthyOpt, hw, List.map_cons]
        rw [map_redactOne_not_mem hk_not]
        simp [hw]
    · have hlook : lookupField ((k, w) :: rest) s = lookupField rest s := by
        simp [lookupField, hk]
      have hhead : ¬(k = s ∧ truthy w) := fun hc => hk hc.1
      by_cases hc : truthyOpt (lookupField rest s) = true
      · have hrest := ih hnd_rest
        simp only [redactStep, hc, if_pos] at hrest
        simp only [redactStep, hlook, hc, if_pos, setField, if_neg hk, List.map_cons]
        rw [hrest]
        simp [hhead]
      · have hrest := ih hnd_rest
        simp only [redactStep, hc, if_neg, Bool.not_eq_true] at hrest
        simp only [redactStep, hlook, List.map_cons]
        rw [if_neg hc]
        simp [hhead]
        exact hrest

/-- Redaction preserves the key list. -/
theorem keys_map_redactOne (fields : List (String × Json)) (s : String) :
    ((fields.map fun p =>
        if p.1 = s ∧ truthy p.2 then (p.1, Json.str "[REDACTED]") else p).map Prod.fst)
      = fields.map Prod.fst := by
  induction fields with
  | nil => rfl
  | cons f r ih =>
    by_cases hc : f.1 = s ∧ truthy f.2 <;> simp [hc, ih]

/-- Composing a single-key redaction with a list redaction is redaction for
the extended list. -/
theorem redactOne_comp (s : String) (srest : List String) (p : String × Json) :
    (fun q : String × Json =>
        if q.1 ∈ srest ∧ truthy q.2 then (q.1, Json.str "[REDACTED]") else q)
      ((fun q : String × Json =>
        if q.1 = s ∧ truthy q.2 then (q.1, Json.str "[REDACTED]") else q) p)
    = if p.1 ∈ s :: srest ∧ truthy p.2 then (p.1, Json.str "[REDACTED]") else p := by
  by_cases h1 : p.1 = s <;> by_cases h2 : truthy p.2 <;>
    by_cases h3 : p.1 ∈ srest <;>
      simp [h1, h2, h3, truthy_redacted, List.mem_cons]

/-- The whole redaction loop on an object with distinct keys replaces exactly
the truthy values sitting at keys of the sensitive list. -/
theorem redactFields_eq_map {sensitive : List String} {fields : List (String × Json)}
    (hnd : (fields.map Prod.fst).Nodup) :
    redactFields sensitive fields =
      fields.map fun p =>
        if p.1 ∈ sensitive ∧ truthy p.2 then (p.1, Json.str "[REDACTED]") else p := by
  induction sensitive generalizing fields with
  | nil =>
    simp only [redactFields, List.foldl_nil, List.not_mem_nil, false_and, if_neg,
      not_false_iff]
    exact (List.map_id fields).symm ▸ (by simp)
  | cons s srest ih =>
    have hstep : redactFields (s :: srest) fields
        = redactFields srest (fields.map fun p =>
            if p.1 = s ∧ truthy p.2 then (p.1, Json.str "[REDACTED]") else p) := by
      simp only [redactFields, List.foldl_cons]
      rw [redactStep_eq hnd]
    have hnd2 : (((fields.map fun p =>
        if p.1 = s ∧ truthy p.2 then (p.1, Json.str "[REDACTED]") else p)).map
          Prod.fst).Nodup := by
      rw [keys_map_redactOne]; exact hnd
    rw [hstep, ih hnd2, List.map_map]
    apply List.map_congr_left
    intro p _
    exact redactOne_comp s srest p

/-- C9: for an object body with distinct keys whose sanitized serialization is
within the 1000-character threshold, `sanitizeBody` returns the body unchanged
except that top-level sensitive keys with truthy values are replaced by
"[REDACTED]"; consequently a sensitive key inside a nested object, or a
top-level sensitive key with a falsy value, passes through unredacted. -/
theorem sanitizeBody_redacts_only_toplevel_truthy
    (fields : List (String × Json))
    (hnd : (fields.map Prod.fst).Nodup)
    (hsize : (stringify (.obj (redactFields PosthogService.sensitiveFields fields))).length
      ≤ 1000) :
    PosthogService.sanitizeBody (.obj fields)
      = .ok (.obj (fields.map fun p =>
          if p.1 ∈ PosthogService.sensitiveFields ∧ truthy p.2
          then (p.1, Json.str "[REDACTED]") else p)) := by
  have hred := @redactFields_eq_map PosthogService.sensitiveFields fields hnd
  unfold PosthogService.sanitizeBody
  rw [if_neg (show ¬((!truthy (Json.obj fields)) = true) by simp [truthy])]
  simp only [jsSpread]
  rw [if_neg (show ¬((stringify
      (Json.obj (redactFields PosthogService.sensitiveFields fields))).length > 1000)
    by omega)]
  rw [hred]

/-- A body exercising the C9 passthroughs: a nested sensitive key and a falsy
top-level sensitive key. -/
def c9Body : List (String × Json) :=
  [("user", .obj [("password", .str "nested-secret")]),
   ("password", .str ""),
   ("name", .str "x")]

/-- C9 witness: on `c9Body`, the nested `password` and the falsy top-level
`password` both pass through unredacted — the sanitized body equals the
input. -/
theorem sanitizeBody_redacts_only_toplevel_truthy_witness :
    PosthogService.sanitizeBody (.obj c9Body) = .ok (.obj c9Body) := by
  have h := sanitizeBody_redacts_only_toplevel_truthy c9Body (by decide) (by decide)
  exact h.trans (by rfl)

/-- C6 counterexample: the sensitive-field match is exact, not
case-insensitive — a `PASSWORD` key, which case-insensitively matches the
configured `password`, passes through unredacted, its value left intact; and
even an exactly matching `password` key keeps its value when that value is
falsy (here the empty string), so not every matching field is replaced. -/
theorem sanitizeBody_case_insensitive_counterexample :
    PosthogService.sanitizeBody (.obj [("PASSWORD", .str "secret123"), ("name", .str "x")])
      = .ok (.obj [("PASSWORD", .str "secret123"), ("name", .str "x")])
    ∧ lowerString "PASSWORD" = "password"
    ∧ "password" ∈ PosthogService.sensitiveFields
    ∧ PosthogService.sanitizeBody (.obj [("password", .str "")])
      = .ok (.obj [("password", .str "")]) := by
  refine ⟨rfl, by decide, by decide, rfl⟩

/-- C6 (amended): `sanitizeBody` replaces the value of any truthy top-level
field whose key exactly (case-sensitively) equals one of password, token,
secret, apiKey, apikey, access_token with "[REDACTED]" and leaves fields with
other keys unchanged; in particular
`{"password":"secret123","name":"x"}` sanitizes to
`{"password":"[REDACTED]","name":"x"}`. -/
theorem sanitizeBody_redacts_exact_matches :
    (PosthogService.sanitizeBody (.obj [("password", .str "secret123"), ("name", .str "x")])
      = .ok (.obj [("password", .str "[REDACTED]"), ("name", .str "x")]))
    ∧ ∀ (fields : List (String × Json)), (fields.map Prod.fst).Nodup →
        ∀ k v, (k, v) ∈ fields →
          ((k ∈ PosthogService.sensitiveFields ∧ truthy v →
              (k, Json.str "[REDACTED]")
                ∈ redactFields PosthogService.sensitiveFields fields)
           ∧ (k ∉ PosthogService.sensitiveFields →
              (k, v) ∈ redactFields PosthogService.sensitiveFields fields)) := by
  constructor
  · rfl
  · intro fields hnd k v hmem
    rw [redactFields_eq_map hnd]
    constructor
    · intro hkv
      refine List.mem_map.mpr ⟨(k, v), hmem, ?_⟩
      simp [hkv.1, hkv.2]
    · intro hk
      refine List.mem_map.mpr ⟨(k, v), hmem, ?_⟩
      simp [hk]

/-- C6 witness: on `[("token","t1"),("id",7)]` the theorem yields that `token`
is redacted and `id` is untouched. -/
theorem sanitizeBody_redacts_exact_matches_witness :
    (("token", Json.str "[REDACTED]") ∈ redactFields PosthogService.sensitiveFields
        [("token", Json.str "t1"), ("id", Json.num 7)])
    ∧ (("id", Json.num 7) ∈ redactFields PosthogService.sensitiveFields
        [("token", Json.str "t1"), ("id", Json.num 7)]) := by
  constructor
  · exact (sanitizeBody_redacts_exact_matches.2 _ (by decide) "token" (.str "t1")
      (by simp)).1 ⟨by decide, by decide⟩
  · exact (sanitizeBody_redacts_exact_matches.2 _ (by decide) "id" (.num 7)
      (by simp)).2 (by decide)

/-- The change recorded for one body slot by `calculateChanges`: a recursive
diff, a wholesale addition, or a wholesale removal. -/
inductive BodyChange where
  | diffed (d : List (String × DiffNode))
  | added (value : Json)
  | removed (value : Json)
  deriving Repr

/-- The record returned by `calculateChanges`; the JS `changes` object's
`request_body`/`response_body` keys are the two `Option` fields. -/
structure ChangesResult where
  hasChanges : Bool
  requestChange : Option BodyChange
  responseChange : Option BodyChange
  summary : String
  deriving Repr

/-- The request/response bodies of one call as consumed by `calculateChanges`
(absent is `none`). -/
structure BodyPair where
  requestBody : Option Json
  responseBody : Option Json

namespace PosthogService

/-- The request-body comparison block of `calculateChanges` (lines 712–724):
returns the change-object entry and the description pushed on the change
list. -/
def compareRequestBodies (prev current : BodyPair) : Option (BodyChange × String) :=
  if truthyOpt prev.requestBody ∧ truthyOpt current.requestBody then
    let requestDiff := deepDiff (prev.requestBody.getD .null) (current.requestBody.getD .null)
    if requestDiff.length > 0 then some (.diffed requestDiff, "Request body changed")
    else none
  else if truthyOpt current.requestBody ∧ ¬truthyOpt prev.requestBody then
    some (.added (current.requestBody.getD .null), "Request body added")
  else if truthyOpt prev.requestBody ∧ ¬truthyOpt current.requestBody then
    some (.removed (prev.requestBody.getD .null), "Request body removed")
  else none

/-- The response-body comparison block of `calculateChanges` (lines 727–739). -/
def compareResponseBodies (prev current : BodyPair) : Option (BodyChange × String) :=
  if truthyOpt prev.responseBody ∧ truthyOpt current.responseBody then
    let responseDiff := deepDiff (prev.responseBody.getD .null) (current.responseBody.getD .null)
    if responseDiff.length > 0 then some (.diffed responseDiff, "Response body changed")
    else none
  else if truthyOpt current.responseBody ∧ ¬truthyOpt prev.responseBody then
    some (.added (current.responseBody.getD .null), "Response body added")
  else if truthyOpt prev.responseBody ∧ ¬truthyOpt current.responseBody then
    some (.removed (prev.responseBody.getD .null), "Response body removed")
  else none

/-- `calculateChanges(previous, current)` from lines 692–745. -/
def calculateChanges (previous : Option BodyPair) (current : BodyPair) : ChangesResult :=
  match previous with
  | none =>
      { hasChanges := false, requestChange := none, responseChange := none,
        summary := "First call to this endpoint" }
  | some prev =>
      let requestChange := compareRequestBodies prev current
      let responseChange := compareResponseBodies prev current
      let changeList := requestChange.toList.map Prod.snd
        ++ responseChange.toList.map Prod.snd
      { hasChanges := requestChange.isSome || responseChange.isSome,
        requestChange := requestChange.map Prod.fst,
        responseChange := responseChange.map Prod.fst,
        summary :=
          if changeList.length > 0 then String.intercalate "; " changeList
          else "No changes detected" }

end PosthogService

/-- The request-body comparison yields one of three fixed descriptions. -/
theorem compareRequestBodies_cases (prev current : BodyPair) :
    PosthogService.compareRequestBodies prev current = none
    ∨ (∃ bc, PosthogService.compareRequestBodies prev current
        = some (bc, "Request body changed"))
    ∨ (∃ bc, PosthogService.compareRequestBodies prev current
        = some (bc, "Request body added"))
    ∨ (∃ bc, PosthogService.compareRequestBodies prev current
        = some (bc, "Request body removed")) := by
  unfold PosthogService.compareRequestBodies
  split_ifs <;> simp
  all_goals exact Or.imp List.length_eq_zero.mp id (Nat.eq_zero_or_pos _)

/-- The response-body comparison yields one of three fixed descriptions. -/
theorem compareResponseBodies_cases (prev current : BodyPair) :
    PosthogService.compareResponseBodies prev current = none
    ∨ (∃ bc, PosthogService.compareResponseBodies prev current
        = some (bc, "Response body changed"))
    ∨ (∃ bc, PosthogService.compareResponseBodies prev current
        = some (bc, "Response body added"))
    ∨ (∃ bc, PosthogService.compareResponseBodies prev current
        = some (bc, "Response body removed")) := by
  unfold PosthogService.compareResponseBodies
  split_ifs <;> simp
  all_goals exact Or.imp List.length_eq_zero.mp id (Nat.eq_zero_or_pos _)

/-- Scenario A's request-body diff evaluates to one `Changed` node. -/
theorem deepDiff_scenarioA :
    deepDiff (.obj [("name", .str "Old Item")]) (.obj [("name", .str "New Item")])
      = [("name", .changed (.str "Old Item") (.str "New Item"))] := by
  rw [deepDiff]
  rfl

/-- Scenario A's equal response bodies diff to nothing. -/
theorem deepDiff_scenarioAResp :
    deepDiff (.obj [("id", .num 1)]) (.obj [("id", .num 1)]) = [] := by
  rw [deepDiff]
  rfl

/-- The previous call of scenario A. -/
def scenarioAPrev : BodyPair :=
  ⟨some (.obj [("name", .str "Old Item")]), some (.obj [("id", .num 1)])⟩

/-- The current call of scenario A (same response body as the previous call). -/
def scenarioACurr : BodyPair :=
  ⟨some (.obj [("name", .str "New Item")]), some (.obj [("id", .num 1)])⟩

/-- C4: `calculateChanges` produces summary "First call to this endpoint"
exactly when `previous` is null; "No changes detected" exactly when `previous`
is non-null but neither body comparison yields a change; and otherwise the
semicolon-joined change descriptions — in particular, for previous request
body `{"name":"Old Item"}` and current request body `{"name":"New Item"}`
with equal response bodies, the diff is `{name: Changed("Old Item","New
Item")}` and the summary is "Request body changed". -/
theorem calculateChanges_summary_spec :
    (∀ (previous : Option BodyPair) (current : BodyPair),
      ((PosthogService.calculateChanges previous current).summary
          = "First call to this endpoint" ↔ previous = none)
      ∧ ((PosthogService.calculateChanges previous current).summary
          = "No changes detected"
        ↔ previous ≠ none
          ∧ (PosthogService.calculateChanges previous current).hasChanges = false))
    ∧ (PosthogService.calculateChanges (some scenarioAPrev) scenarioACurr).summary
        = "Request body changed"
    ∧ (PosthogService.calculateChanges (some scenarioAPrev) scenarioACurr).requestChange
        = some (.diffed [("name", .changed (.str "Old Item") (.str "New Item"))]) := by
  have hreqA : PosthogService.compareRequestBodies scenarioAPrev scenarioACurr
      = some (.diffed [("name", .changed (.str "Old Item") (.str "New Item"))],
          "Request body changed") := by
    unfold PosthogService.compareRequestBodies
    rw [if_pos ⟨rfl, rfl⟩]
    simp only [scenarioAPrev, scenarioACurr, Option.getD, deepDiff_scenarioA]
    rfl
  have hrespA : PosthogService.compareResponseBodies scenarioAPrev scenarioACurr
      = none := by
    unfold PosthogService.compareResponseBodies
    rw [if_pos ⟨rfl, rfl⟩]
    simp only [scenarioAPrev, scenarioACurr, Option.getD, deepDiff_scenarioAResp]
    rfl
  refine ⟨?_, ?_, ?_⟩
  · intro previous current
    cases previous with
    | none =>
        constructor
        · simp [PosthogService.calculateChanges]
        · simp [PosthogService.calculateChanges]
    | some prev =>
        rcases compareRequestBodies_cases prev current
          with h | ⟨bc, h⟩ | ⟨bc, h⟩ | ⟨bc, h⟩ <;>
          rcases compareResponseBodies_cases prev current
            with h2 | ⟨bc2, h2⟩ | ⟨bc2, h2⟩ | ⟨bc2, h2⟩ <;>
          simp [PosthogService.calculateChanges, h, h2, String.intercalate] <;>
          decide
  · simp [PosthogService.calculateChanges, hreqA, hrespA]
    decide
  · simp [PosthogService.calculateChanges, hreqA, hrespA]

/-- One locally buffered event (the `TrackedEvent` interface): the wall-clock
`Date` is modelled by an opaque `Nat` supplied at call time. -/
structure TrackedEvent where
  distinctId : String
  eventName : String
  properties : Json
  timestamp : Nat
  deriving Repr

/-- `arr.slice(start)` for an integer `start` (JS semantics: a negative start
counts from the end, `-0` is `0`). -/
def jsSliceFrom {α : Type} (xs : List α) (start : Int) : List α :=
  if start < 0 then xs.drop (xs.length - min xs.length start.natAbs)
  else xs.drop (min start.toNat xs.length)

/-- `a || b` on a possibly-absent value, JS truthiness. -/
def jsOrJson (a : Option Json) (b : Json) : Json :=
  match a with
  | some v => if truthy v then v else b
  | none => b

/-- The placeholder value of an unconfigured `POSTHOG_API_KEY`. -/
def apiKeyPlaceholder : String := "phc_your_api_key_here"

/-- `process.env.X || dflt` (an unset or empty environment variable is
falsy). -/
def envOr (v : Option String) (dflt : String) : String :=
  match v with
  | none => dflt
  | some s => if s = "" then dflt else s

namespace PosthogService

/-- The guard of `track` (lines 60–65):
`!apiKey || apiKey === 'phc_your_api_key_here'` after
`apiKey = process.env.POSTHOG_API_KEY || 'phc_your_api_key_here'`. -/
def trackGuard (envApiKey : Option String) : Bool :=
  let apiKey := envOr envApiKey apiKeyPlaceholder
  (apiKey == "") || (apiKey == apiKeyPlaceholder)

/-- What one `client.capture` call sends to the remote store (the enriched
property payload — timestamps, `$lib` fields — is not modelled; no claim
depends on it). -/
structure Capture where
  distinctId : String
  event : String
  deriving Repr

/-- `track(distinctId, eventName, properties)` (lines 59–100): returns the
updated local event log and the captures sent to PostHog.  When the API key
is unconfigured it returns before sending or logging anything; otherwise it
captures, appends `{distinctId, eventName, properties || {}, timestamp}` to
the log, and trims the log to its last `MAX_LOG_SIZE = 100` entries. -/
def track (envApiKey : Option String) (eventLog : List TrackedEvent)
    (distinctId eventName : String) (properties : Option Json) (now : Nat) :
    List TrackedEvent × List Capture :=
  if trackGuard envApiKey then (eventLog, [])
  else
    let newLog := eventLog ++
      [{ distinctId := distinctId, eventName := eventName,
         properties := jsOrJson properties (.obj []), timestamp := now }]
    (if newLog.length > 100 then jsSliceFrom newLog (-100) else newLog,
     [{ distinctId := distinctId, event := eventName }])

/-- The per-event DTO projection of `getRecentEvents` (lines 129–134). -/
def toDto (e : TrackedEvent) : TrackedEvent :=
  { distinctId := e.distinctId, eventName := e.eventName,
    properties := e.properties, timestamp := e.timestamp }

/-- `getRecentEvents(limit)` (lines 125–135):
`eventLog.slice(-limit).reverse()` mapped to DTOs. -/
def getRecentEvents (eventLog : List TrackedEvent) (limit : Nat) :
    List TrackedEvent :=
  ((jsSliceFrom eventLog (-(limit : Int))).reverse).map toDto

end PosthogService

/-- The DTO projection copies every field. -/
@[simp] theorem toDto_eq (e : TrackedEvent) : PosthogService.toDto e = e := rfl

/-- Two sample buffer entries. -/
def sampleEvent1 : TrackedEvent := ⟨"u1", "ev1", .null, 1⟩

/-- A second sample buffer entry. -/
def sampleEvent2 : TrackedEvent := ⟨"u2", "ev2", .null, 2⟩

/-- C8 counterexample: the claim says `getRecentEvents 0` returns zero
entries, but `slice(-0)` is `slice(0)`, so with a two-entry buffer the call
returns both entries. -/
theorem getRecentEvents_zero_counterexample :
    (PosthogService.getRecentEvents [sampleEvent1, sampleEvent2] 0).length = 2 := by
  rfl

/-- C8 (amended): for every positive limit, `getRecentEvents` returns exactly
`min limit length` entries — hence at most `min limit capacity` for any buffer
within the capacity bound — ordered most-recent first (entry `i` is the
buffer's `length - 1 - i`-th); but at `limit = 0` it returns the entire
retained buffer newest-first rather than zero entries, because `slice(-0)` is
`slice(0)`. -/
theorem getRecentEvents_clamp_spec :
    (∀ (log : List TrackedEvent) (limit : Nat), 1 ≤ limit →
        (PosthogService.getRecentEvents log limit).length = min limit log.length
        ∧ (log.length ≤ 100 →
            (PosthogService.getRecentEvents log limit).length ≤ min limit 100)
        ∧ ∀ i, i < min limit log.length →
            (PosthogService.getRecentEvents log limit)[i]?
              = log[log.length - 1 - i]?)
    ∧ ∀ log : List TrackedEvent, PosthogService.getRecentEvents log 0 = log.reverse := by
  have hmap : ∀ l : List TrackedEvent, l.map PosthogService.toDto = l := by
    intro l
    induction l with
    | nil => rfl
    | cons x xs ih => simp [ih]
  constructor
  · intro log limit hpos
    have hneg : (-(limit : Int)) < 0 := by omega
    have habs : (-(limit : Int)).natAbs = limit := by omega
    have hslice : jsSliceFrom log (-(limit : Int))
        = log.drop (log.length - min log.length limit) := by
      unfold jsSliceFrom
      rw [if_pos hneg, habs]
    have hlen : (PosthogService.getRecentEvents log limit).length
        = min limit log.length := by
      unfold PosthogService.getRecentEvents
      rw [hslice]
      simp [List.length_drop]
      omega
    refine ⟨hlen, ?_, ?_⟩
    · intro hcap
      rw [hlen]
      omega
    · intro i hi
      unfold PosthogService.getRecentEvents
      rw [hmap, hslice]
      have hdl : (log.drop (log.length - min log.length limit)).length
          = min log.length limit := by
        simp [List.length_drop]
        omega
      rw [List.getElem?_reverse (by omega), hdl, List.getElem?_drop]
      congr 1
      omega
  · intro log
    unfold PosthogService.getRecentEvents
    rw [hmap]
    unfold jsSliceFrom
    norm_num

/-- C8 witness: at `limit = 1` on a two-entry buffer the theorem yields one
entry, the newest. -/
theorem getRecentEvents_clamp_spec_witness :
    (PosthogService.getRecentEvents [sampleEvent1, sampleEvent2] 1).length = 1
    ∧ (PosthogService.getRecentEvents [sampleEvent1, sampleEvent2] 1)[0]?
        = some sampleEvent2 := by
  have h := getRecentEvents_clamp_spec.1 [sampleEvent1, sampleEvent2] 1 (by decide)
  refine ⟨h.1, ?_⟩
  have h2 := h.2.2 0 (by decide)
  rw [h2]
  rfl

/-- C10: when the ingestion API key is unconfigured (absent or equal to the
placeholder), `track` is a complete no-op: nothing is captured remotely and
nothing is appended to the local event log, so every subsequent
`getRecentEvents` result is exactly what it was before the call. -/
theorem track_noop_when_unconfigured
    (envApiKey : Option String)
    (h : envApiKey = none ∨ envApiKey = some apiKeyPlaceholder)
    (log : List TrackedEvent) (d e : String) (props : Option Json) (now : Nat) :
    PosthogService.track envApiKey log d e props now = (log, [])
    ∧ ∀ limit, PosthogService.getRecentEvents
        (PosthogService.track envApiKey log d e props now).1 limit
      = PosthogService.getRecentEvents log limit := by
  have hguard : PosthogService.trackGuard envApiKey = true := by
    rcases h with h | h <;> subst h <;> rfl
  unfold PosthogService.track
  rw [if_pos hguard]
  exact ⟨rfl, fun _ => rfl⟩

/-- C10 witness: with no API key configured, tracking into a one-entry buffer
changes nothing. -/
theorem track_noop_when_unconfigured_witness :
    PosthogService.track none [sampleEvent1] "u" "ev" none 5 = ([sampleEvent1], [])
    ∧ PosthogService.getRecentEvents
        (PosthogService.track none [sampleEvent1] "u" "ev" none 5).1 3
      = PosthogService.getRecentEvents [sampleEvent1] 3 := by
  have h := track_noop_when_unconfigured none (Or.inl rfl) [sampleEvent1] "u" "ev" none 5
  exact ⟨h.1, h.2 3⟩

/-- `undefined`-tolerant value: an absent field behaves like `null` for
truthiness and sanitization. -/
def orNull (o : Option Json) : Json :=
  match o with
  | none => .null
  | some v => v

/-- The previous-call record returned by the PostHog query tiers (the result
type at lines 306–317); `timestamp` is the opaque raw value chosen by the
retrieval code (`Date` is not modelled). -/
structure PrevCall where
  requestBody : Option Json
  responseBody : Option Json
  timestamp : Json
  userId : Option Json
  eventId : Option Json
  statusCode : Option Json
  duration : Option Json
  method : Option Json
  path : Option Json
  url : Option Json
  deriving Repr

/-- The argument record of `trackWriteRequestWithComparison` (lines 532–542). -/
structure WriteDetails where
  method : String
  path : String
  url : String
  requestBody : Option Json
  responseBody : Option Json
  statusCode : Int
  userId : String
  duration : Int
  sessionId : Option String
  deriving Repr

/-- The `previous_call` object assembled at lines 585–599. -/
structure PrevCallProps where
  requestBody : Json
  responseBody : Json
  timestamp : Json
  statusCode : Option Json
  durationMs : Option Json
  method : Option Json
  path : Option Json
  url : Option Json
  userId : Option Json
  eventId : Option Json
  deriving Repr

/-- The property payload of the emitted `api_write_request` event
(lines 566–629).  `changes` holds the change object's
`request_body`/`response_body` entries; `changes` and `changeSummary` are only
set when changes were found; `requestBody`/`responseBody` only when the
corresponding current body is truthy; `previousCall` only when a previous
record exists. -/
structure WriteProps where
  method : String
  path : String
  url : String
  statusCode : Int
  durationMs : Int
  requestBody : Option Json
  responseBody : Option Json
  previousCall : Option PrevCallProps
  changes : Option (Option BodyChange × Option BodyChange)
  changeSummary : Option String
  isFirstCall : Bool
  sessionId : Option String
  userId : Option String
  deriving Repr

namespace PosthogService

/-- The sanitization of the previous call's bodies for the `previous_call`
property (lines 585–599); either sanitizer may throw on oversize payloads. -/
def prevCallProps (p : PrevCall) : Except String PrevCallProps :=
  match sanitizeBody (orNull p.requestBody), sanitizeResponse (orNull p.responseBody) with
  | .ok pReq, .ok pResp =>
      .ok { requestBody := pReq, responseBody := pResp, timestamp := p.timestamp,
            statusCode := p.statusCode, durationMs := p.duration,
            method := p.method, path := p.path, url := p.url,
            userId := p.userId, eventId := p.eventId }
  | .error e, _ => .error e
  | _, .error e => .error e

/-- The `previous_call` component: absent previous call contributes no
property; a present one is sanitized (which may throw). -/
def prevCompOf : Option PrevCall → Except String (Option PrevCallProps)
  | none => .ok none
  | some p => (prevCallProps p).map some

/-- The assembly of the `api_write_request` event properties performed by
`trackWriteRequestWithComparison` (lines 532–632) once the previous call (or
`null`, after any retrieval failure) is at hand.  Sanitization can throw on
oversize payloads, so the builder lives in `Except`: a thrown error aborts
the emission.  The flat `previous_*` convenience copies of lines 602–609 are
set under the same `if (previousCall)` condition as `previous_call` and are
not modelled separately. -/
def buildWriteEventProps (details : WriteDetails) (previousCall : Option PrevCall) :
    Except String WriteProps :=
  let changes := calculateChanges
    (previousCall.map fun p => ⟨p.requestBody, p.responseBody⟩)
    ⟨details.requestBody, details.responseBody⟩
  let reqComp : Except String (Option Json) :=
    if truthyOpt details.requestBody
      then (sanitizeBody (orNull details.requestBody)).map some else .ok none
  let respComp : Except String (Option Json) :=
    if truthyOpt details.responseBody
      then (sanitizeResponse (orNull details.responseBody)).map some else .ok none
  match reqComp, respComp, prevCompOf previousCall with
  | .ok reqProp, .ok respProp, .ok prevProp =>
      .ok { method := details.method, path := details.path, url := details.url,
            statusCode := details.statusCode, durationMs := details.duration,
            requestBody := reqProp, responseBody := respProp,
            previousCall := prevProp,
            changes := if changes.hasChanges
              then some (changes.requestChange, changes.responseChange) else none,
            changeSummary := if changes.hasChanges then some changes.summary else none,
            isFirstCall := if changes.hasChanges then false else previousCall.isNone,
            sessionId := match details.sessionId with
              | some s => if s = "" then none else some s
              | none => none,
            userId := if details.userId ≠ "" ∧ details.userId ≠ "anonymous"
              then some details.userId else none }
  | .error e, _, _ => .error e
  | _, .error e, _ => .error e
  | _, _, .error e => .error e

end PosthogService

/-- C2: in every successfully assembled `api_write_request` event, the
`is_first_call` flag is true if and only if the previous record retrieved from
the store was null; in particular, when no previous record exists the event
has `isFirstCall = true` and carries no previous-call field. -/
theorem writeEvent_isFirstCall_iff
    (details : WriteDetails) (previousCall : Option PrevCall) (props : WriteProps)
    (h : PosthogService.buildWriteEventProps details previousCall = .ok props) :
    (props.isFirstCall = true ↔ previousCall = none)
    ∧ (previousCall = none → props.previousCall = none) := by
  unfold PosthogService.buildWriteEventProps at h
  cases previousCall with
  | none =>
    simp only [PosthogService.prevCompOf] at h
    cases hA : (if truthyOpt details.requestBody
        then (PosthogService.sanitizeBody (orNull details.requestBody)).map some
        else (.ok none : Except String (Option Json))) with
    | error e =>
      simp only [hA] at h
      cases h
    | ok reqProp =>
      cases hB : (if truthyOpt details.responseBody
          then (PosthogService.sanitizeResponse (orNull details.responseBody)).map some
          else (.ok none : Except String (Option Json))) with
      | error e =>
        simp only [hA, hB] at h
        cases h
      | ok respProp =>
        simp only [hA, hB, Except.ok.injEq] at h
        cases h
        refine ⟨⟨fun _ => rfl, fun _ => rfl⟩, fun _ => rfl⟩
  | some p =>
    simp only [PosthogService.prevCompOf] at h
    cases hA : (if truthyOpt details.requestBody
        then (PosthogService.sanitizeBody (orNull details.requestBody)).map some
        else (.ok none : Except String (Option Json))) with
    | error e =>
      simp only [hA] at h
      cases h
    | ok reqProp =>
      cases hB : (if truthyOpt details.responseBody
          then (PosthogService.sanitizeResponse (orNull details.responseBody)).map some
          else (.ok none : Except String (Option Json))) with
      | error e =>
        simp only [hA, hB] at h
        cases h
      | ok respProp =>
        cases hC : PosthogService.prevCallProps p with
        | error e =>
          simp only [hA, hB, hC] at h
          simp only [Except.map] at h
          cases h
        | ok prevProps =>
          simp only [hA, hB, hC] at h
          simp only [Except.map, Except.ok.injEq] at h
          cases h
          constructor
          · simp
          · intro hcontra
            cases hcontra

/-- A small write-event input: POST /items with body `{"name":"x"}`. -/
def sampleDetails : WriteDetails :=
  { method := "POST", path := "/items", url := "/items",
    requestBody := some (.obj [("name", .str "x")]), responseBody := none,
    statusCode := 201, userId := "anonymous", duration := 5, sessionId := none }

/-- The event properties assembled for `sampleDetails` with no previous
record. -/
def sampleProps : WriteProps :=
  { method := "POST", path := "/items", url := "/items", statusCode := 201,
    durationMs := 5, requestBody := some (.obj [("name", .str "x")]),
    responseBody := none, previousCall := none, changes := none,
    changeSummary := none, isFirstCall := true, sessionId := none, userId := none }

/-- C2 witness: on a concrete first call the builder succeeds and the theorem
yields `isFirstCall = true` and no previous-call field. -/
theorem writeEvent_isFirstCall_iff_witness :
    sampleProps.isFirstCall = true ∧ sampleProps.previousCall = none := by
  have h := writeEvent_isFirstCall_iff sampleDetails none sampleProps (by rfl)
  exact ⟨h.1.mpr rfl, h.2 rfl⟩

/-- Outcome of one `fetch` round-trip against a query endpoint: a thrown
error (network failure, or a later `.json()`/`.text()` failure on that
response), a non-ok HTTP response with its error text, or an ok response with
its parsed JSON payload. -/
inductive FetchResult where
  | throws (msg : String)
  | notOk (status : Nat) (text : String)
  | ok (body : Json)
  deriving Repr

/-- The environment of one retrieval attempt: the credential/config
environment variables, the behaviour of the two query endpoints, and
`Date.now()`. -/
structure QueryEnv where
  personalApiKey : Option String
  projectApiKey : Option String
  projectIdEnv : Option String
  primary : FetchResult
  events : FetchResult
  now : Int
  deriving Repr

/-- `a || b` on optional strings (an empty string is falsy; the chain's value
is `b`'s value when `a` is falsy). -/
def jsOrStr (a b : Option String) : Option String :=
  match a with
  | some s => if s ≠ "" then some s else b
  | none => b

/-- `a || b` on possibly-absent JS values. -/
def jsOrOpt (a b : Option Json) : Option Json :=
  match a with
  | some v => if truthy v then some v else b
  | none => b

/-- `.length` of a JS value when it has one (arrays and strings; objects with
a literal `length` property are not modelled). -/
def jsLen : Json → Option Nat
  | .arr xs => some xs.length
  | .str s => some s.length
  | _ => none

/-- `v[0]`. -/
def jsIndex0 : Json → Option Json
  | .arr (x :: _) => some x
  | .str s =>
      match s.data with
      | c :: _ => some (.str (String.singleton c))
      | [] => none
  | _ => none

namespace PosthogService

/-- The capture of the first regex match of `phc_([^_]+)` in the key. -/
def extractAfterPhc : List Char → Option (List Char)
  | 'p' :: 'h' :: 'c' :: '_' :: rest =>
      let run := rest.takeWhile (· ≠ '_')
      if run.length > 0 then some run else extractAfterPhc ('h' :: 'c' :: '_' :: rest)
  | _ :: rest => extractAfterPhc rest
  | [] => none

/-- The key-extraction arm of `getProjectId`: the captured run is accepted
only if it is purely numeric (`/^\d+$/`). -/
def extractProjectIdFromKey (apiKey : String) : Option String :=
  match extractAfterPhc apiKey.data with
  | some run => if run.all (·.isDigit) then some (String.mk run) else none
  | none => none

/-- `getProjectId(apiKey)` (lines 504–526): a truthy `POSTHOG_PROJECT_ID`
env var wins; otherwise best-effort extraction from the key. -/
def getProjectId (projectIdEnv : Option String) (apiKey : String) : Option String :=
  match projectIdEnv with
  | some pid => if pid ≠ "" then some pid else extractProjectIdFromKey apiKey
  | none => extractProjectIdFromKey apiKey

/-- `v.length > 0` as JS evaluates it (`undefined > 0` is false). -/
def jsLenPos (v : Json) : Bool :=
  match jsLen v with
  | some n => n != 0
  | none => false

/-- The result-parsing of the primary Query API response (lines 381–408). -/
def parsePrimaryResponse (env : QueryEnv) (data : Json) : Option PrevCall :=
  let results := jsGet data "results"
  if truthyOpt results && jsLenPos (orNull results) then
    let result0 := jsIndex0 (orNull results)
    let eventData : Option Json :=
      match result0 with
      | some (.arr xs) => xs[0]?
      | some v => some v
      | none => none
    let properties := orNull (jsOrOpt (jsOrOpt (eventData.bind (jsGet · "properties"))
      eventData) (some (.obj [])))
    some { requestBody := jsGet properties "request_body",
           responseBody := jsGet properties "response_body",
           timestamp := orNull (jsOrOpt (jsOrOpt (jsGet properties "timestamp")
             (eventData.bind (jsGet · "timestamp"))) (some (.num env.now))),
           userId := jsOrOpt (jsGet properties "user_id")
             (eventData.bind (jsGet · "distinct_id")),
           eventId := jsOrOpt (eventData.bind (jsGet · "uuid"))
             (eventData.bind (jsGet · "id")),
           statusCode := jsGet properties "status_code",
           duration := jsGet properties "duration_ms",
           method := jsGet properties "method",
           path := jsGet properties "path",
           url := jsGet properties "url" }
  else none

/-- The result-parsing of the fallback Events API response (lines 461–493). -/
def parseEventsResponse (env : QueryEnv) (data : Json) : Option PrevCall :=
  let events : Json :=
    if truthyOpt (jsGet data "results") then orNull (jsGet data "results")
    else match data with
      | .arr _ => data
      | _ =>
          if truthyOpt (jsGet data "events") then orNull (jsGet data "events")
          else .arr []
  match jsLen events with
  | some n =>
      if n > 0 then
        match jsIndex0 events with
        | some event =>
            let properties := orNull (jsOrOpt (jsOrOpt (jsGet event "properties")
              (jsGet event "event")) (some (.obj [])))
            some { requestBody := jsGet properties "request_body",
                   responseBody := jsGet properties "response_body",
                   timestamp := orNull (jsOrOpt (jsOrOpt (jsGet event "timestamp")
                     (jsGet event "created_at")) (some (.num env.now))),
                   userId := jsOrOpt (jsGet event "distinct_id") (jsGet event "user_id"),
                   eventId := jsOrOpt (jsGet event "uuid")
                     (jsOrOpt (jsGet event "id") (jsGet event "event_id")),
                   statusCode := jsGet properties "status_code",
                   duration := jsGet properties "duration_ms",
                   method := jsGet properties "method",
                   path := jsGet properties "path",
                   url := jsGet properties "url" }
        | none => none
      else none
  | none => none

/-- The body of `tryEventsApiEndpoint` (lines 418–498) before its `catch`:
a thrown fetch error propagates as `Except.error`, a non-ok response or no
matching event resolves to `null`. -/
def tryEventsApiEndpointBody (env : QueryEnv) : Except String (Option PrevCall) :=
  match env.events with
  | .throws msg => .error msg
  | .notOk _ _ => .ok none
  | .ok data => .ok (parseEventsResponse env data)

/-- `tryEventsApiEndpoint` with its `catch` clause (line 494–497): any thrown
error resolves to `null`. -/
def tryEventsApiEndpoint (env : QueryEnv) : Option PrevCall :=
  match tryEventsApiEndpointBody env with
  | .ok r => r
  | .error _ => none

/-- The body of `getPreviousCallFromPostHog` (lines 302–413) before its
`catch`: missing/placeholder credentials or an unresolvable project id skip
retrieval with `null`; a non-ok primary response falls back to the events
endpoint; a thrown error propagates as `Except.error`. -/
def getPreviousCallBody (env : QueryEnv) : Except String (Option PrevCall) :=
  if jsOrStr env.personalApiKey env.projectApiKey = none
      ∨ jsOrStr env.personalApiKey env.projectApiKey = some ""
      ∨ jsOrStr env.personalApiKey env.projectApiKey = some apiKeyPlaceholder then
    .ok none
  else
    match getProjectId env.projectIdEnv
        ((jsOrStr env.personalApiKey env.projectApiKey).getD "") with
    | none => .ok none
    | some _pid =>
        match env.primary with
        | .throws msg => .error msg
        | .notOk _ _ => .ok (tryEventsApiEndpoint env)
        | .ok data => .ok (parsePrimaryResponse env data)

/-- `getPreviousCallFromPostHog` with its `catch` clause (lines 409–412): any
thrown error resolves to `null`. -/
def getPreviousCallFromPostHog (env : QueryEnv) : Option PrevCall :=
  match getPreviousCallBody env with
  | .ok r => r
  | .error _ => none

end PosthogService

/-- C5: `getPreviousCall` never surfaces an error: for every environment —
missing or placeholder credentials, unresolvable project id, thrown fetch
error, non-success primary response, fallback failure, or no matching event —
it resolves to a prior record or `null`, attempting the structured query
endpoint first and the events endpoint as fallback, with every failure mode
mapped to `null`. -/
theorem getPreviousCall_degrades_to_null (env : QueryEnv) :
    ((jsOrStr env.personalApiKey env.projectApiKey = none
        ∨ jsOrStr env.personalApiKey env.projectApiKey = some ""
        ∨ jsOrStr env.personalApiKey env.projectApiKey = some apiKeyPlaceholder) →
      PosthogService.getPreviousCallFromPostHog env = none)
    ∧ (∀ key, jsOrStr env.personalApiKey env.projectApiKey = some key →
        PosthogService.getProjectId env.projectIdEnv key = none →
        PosthogService.getPreviousCallFromPostHog env = none)
    ∧ (∀ msg, env.primary = .throws msg →
        PosthogService.getPreviousCallFromPostHog env = none)
    ∧ (∀ key s t, jsOrStr env.personalApiKey env.projectApiKey = some key →
        key ≠ "" → key ≠ apiKeyPlaceholder →
        (∃ pid, PosthogService.getProjectId env.projectIdEnv key = some pid) →
        env.primary = .notOk s t →
        PosthogService.getPreviousCallFromPostHog env
          = PosthogService.tryEventsApiEndpoint env)
    ∧ (∀ msg, env.events = .throws msg →
        PosthogService.tryEventsApiEndpoint env = none)
    ∧ (∀ s t, env.events = .notOk s t →
        PosthogService.tryEventsApiEndpoint env = none)
    ∧ (∀ data, env.primary = .ok data → jsGet data "results" = some (.arr []) →
        PosthogService.getPreviousCallFromPostHog env = none)
    ∧ (∀ data, env.events = .ok data → jsGet data "results" = some (.arr []) →
        PosthogService.tryEventsApiEndpoint env = none) := by
  have hparse : ∀ data, jsGet data "results" = some (.arr []) →
      PosthogService.parsePrimaryResponse env data = none := by
    intro data hres
    unfold PosthogService.parsePrimaryResponse
    simp [hres, truthyOpt, truthy, orNull, jsLen, PosthogService.jsLenPos]
  have hparseEv : ∀ data, jsGet data "results" = some (.arr []) →
      PosthogService.parseEventsResponse env data = none := by
    intro data hres
    unfold PosthogService.parseEventsResponse
    simp [hres, truthyOpt, truthy, orNull, jsLen]
  refine ⟨?_, ?_, ?_, ?_, ?_, ?_, ?_, ?_⟩
  · intro h
    unfold PosthogService.getPreviousCallFromPostHog PosthogService.getPreviousCallBody
    rw [if_pos h]
  · intro key hk hpid
    unfold PosthogService.getPreviousCallFromPostHog PosthogService.getPreviousCallBody
    by_cases hcond : (jsOrStr env.personalApiKey env.projectApiKey = none
        ∨ jsOrStr env.personalApiKey env.projectApiKey = some ""
        ∨ jsOrStr env.personalApiKey env.projectApiKey = some apiKeyPlaceholder)
    · rw [if_pos hcond]
    · rw [if_neg hcond, hk]
      simp only [Option.getD]
      rw [hpid]
  · intro msg hmsg
    unfold PosthogService.getPreviousCallFromPostHog PosthogService.getPreviousCallBody
    by_cases hcond : (jsOrStr env.personalApiKey env.projectApiKey = none
        ∨ jsOrStr env.personalApiKey env.projectApiKey = some ""
        ∨ jsOrStr env.personalApiKey env.projectApiKey = some apiKeyPlaceholder)
    · rw [if_pos hcond]
    · rw [if_neg hcond]
      cases hpid : PosthogService.getProjectId env.projectIdEnv
          ((jsOrStr env.personalApiKey env.projectApiKey).getD "") with
      | none => rfl
      | some pid => rw [hmsg]
  · intro key s t hk hne hnp hpidex hprim
    obtain ⟨pid, hpid⟩ := hpidex
    unfold PosthogService.getPreviousCallFromPostHog PosthogService.getPreviousCallBody
    have hcond : ¬(jsOrStr env.personalApiKey env.projectApiKey = none
        ∨ jsOrStr env.personalApiKey env.projectApiKey = some ""
        ∨ jsOrStr env.personalApiKey env.projectApiKey = some apiKeyPlaceholder) := by
      rw [hk]
      simp [hne, hnp]
    rw [if_neg hcond, hk]
    simp only [Option.getD]
    rw [hpid, hprim]
  · intro msg hmsg
    unfold PosthogService.tryEventsApiEndpoint PosthogService.tryEventsApiEndpointBody
    rw [hmsg]
  · intro s t hmsg
    unfold PosthogService.tryEventsApiEndpoint PosthogService.tryEventsApiEndpointBody
    rw [hmsg]
  · intro data hprim hres
    unfold PosthogService.getPreviousCallFromPostHog PosthogService.getPreviousCallBody
    by_cases hcond : (jsOrStr env.personalApiKey env.projectApiKey = none
        ∨ jsOrStr env.personalApiKey env.projectApiKey = some ""
        ∨ jsOrStr env.personalApiKey env.projectApiKey = some apiKeyPlaceholder)
    · rw [if_pos hcond]
    · rw [if_neg hcond]
      cases hpid : PosthogService.getProjectId env.projectIdEnv
          ((jsOrStr env.personalApiKey env.projectApiKey).getD "") with
      | none => rfl
      | some pid =>
          rw [hprim]
          show PosthogService.parsePrimaryResponse env data = none
          exact hparse data hres
  · intro data hev hres
    unfold PosthogService.tryEventsApiEndpoint PosthogService.tryEventsApiEndpointBody
    rw [hev]
    show PosthogService.parseEventsResponse env data = none
    exact hparseEv data hres

/-- A query environment in which both endpoints answer non-ok and the project
id is extractable from the key. -/
def envW : QueryEnv :=
  { personalApiKey := none, projectApiKey := some "phc_123_abc",
    projectIdEnv := none, primary := .notOk 400 "err",
    events := .notOk 401 "x", now := 0 }

/-- C5 witness: in `envW` the primary endpoint fails, retrieval falls back to
the events endpoint, which also fails, and the whole call resolves to
`null`. -/
theorem getPreviousCall_degrades_to_null_witness :
    PosthogService.getPreviousCallFromPostHog envW = none
    ∧ PosthogService.tryEventsApiEndpoint envW = none := by
  have h := getPreviousCall_degrades_to_null envW
  have h6 := h.2.2.2.2.2.1 401 "x" rfl
  have h4 := h.2.2.2.1 "phc_123_abc" 400 "err" rfl (by decide) (by decide)
    ⟨"123", by decide⟩ rfl
  exact ⟨h4.trans h6, h6⟩

namespace PosthogService

/-- The event names one `track(distinctId, eventName, …)` call sends: none
when the key is unconfigured, exactly the event once otherwise (cf. `track`,
whose captures this projects). -/
def trackEmits (envApiKey : Option String) (eventName : String) : List String :=
  if trackGuard envApiKey then [] else [eventName]

/-- `trackEmits` is the event-name projection of `track`'s captures. -/
theorem track_captures_eq_trackEmits (envApiKey : Option String)
    (log : List TrackedEvent) (d n : String) (p : Option Json) (now : Nat) :
    ((track envApiKey log d n p now).2).map Capture.event = trackEmits envApiKey n := by
  unfold track trackEmits
  by_cases h : trackGuard envApiKey <;> simp [h]

/-- The context sanitization inside `trackError` (lines 194–204): redact the
`requestHeaders` entry (total) and re-sanitize the `requestBody` entry (which
may throw on an oversize body). -/
def sanitizeErrorContext (context : Json) : Except String Json :=
  let c0 := jsSpread context
  let c1 := if truthyOpt (lookupField c0 "requestHeaders")
    then setField c0 "requestHeaders"
      (sanitizeHeaders (orNull (lookupField c0 "requestHeaders")))
    else c0
  match (if truthyOpt (lookupField c1 "requestBody")
      then (sanitizeBody (orNull (lookupField c1 "requestBody"))).map some
      else (.ok none : Except String (Option Json))) with
  | .ok (some sb) => .ok (.obj (setField c1 "requestBody" sb))
  | .ok none => .ok (.obj c1)
  | .error e => .error e

end PosthogService

/-- The request data the interceptor reads before invoking the handler
(controller lines 143–157): `sessionId` is the `x-session-id` header,
`userId` the authenticated user id when present. -/
structure ReqInfo where
  method : String
  url : String
  path : String
  query : Json
  body : Json
  headers : Json
  sessionId : Option String
  userId : Option String
  deriving Repr

/-- The outcome of the handler pipeline observed by the interceptor's `tap`:
the response payload on success, or the thrown error on failure. -/
inductive HandlerOutcome where
  | success (responseData : Json)
  | failure (errName errMessage : String)
  deriving Repr

namespace PosthogInterceptor

/-- Field names redacted by the interceptor's own `sanitizeBody`
(controller line 215 — note: no `access_token`, unlike the service's list). -/
def sensitiveFields : List String :=
  ["password", "token", "secret", "apiKey", "apikey"]

/-- Header names redacted by the interceptor's `sanitizeHeaders`
(controller line 237 — note: no `x-session-id`). -/
def sensitiveHeaders : List String :=
  ["authorization", "cookie", "x-api-key"]

/-- The interceptor's `sanitizeBody` (controller lines 211–231): same shape
as the service's, with its own sensitive list; may throw on the truncation
path. -/
def sanitizeBody (body : Json) : Except String Json :=
  if !truthy body then .ok .null
  else
    let sanitized := redactFields sensitiveFields (jsSpread body)
    let bodyStr := stringify (.obj sanitized)
    if bodyStr.length > 1000 then jsonParse (jsSubstring bodyStr 1000 ++ "...")
    else .ok (.obj sanitized)

/-- The interceptor's `sanitizeHeaders` (controller lines 233–249). -/
def sanitizeHeaders (headers : Json) : Json :=
  if !truthy headers then .null
  else
    .obj ((jsSpread headers).map fun p =>
      (p.1, if lowerString p.1 ∈ sensitiveHeaders then Json.str "[REDACTED]" else p.2))

/-- The interceptor's `sanitizeResponse` (controller lines 251–265): same
shape as the service's. -/
def sanitizeResponse (data : Json) : Except String Json :=
  if !truthy data then .ok .null
  else
    let dataStr := stringify data
    if dataStr.length > 2000 then
      (jsonParse (jsSubstring dataStr 2000 ++ "...")).map fun preview =>
        .obj [("_truncated", .bool true), ("_size", .num dataStr.length),
              ("preview", preview)]
    else .ok data

/-- `(request as any).user?.id?.toString() || 'anonymous'`. -/
def userIdOf (req : ReqInfo) : String :=
  match req.userId with
  | some s => if s ≠ "" then s else "anonymous"
  | none => "anonymous"

/-- The error-context object assembled at controller lines 194–204 (the
timestamp string is omitted: only the `requestHeaders`/`requestBody` entries
participate in further sanitization). -/
def errorContextOf (req : ReqInfo) (body : Json) (statusCode duration : Int) : Json :=
  .obj [("method", .str req.method), ("url", .str req.url), ("path", .str req.path),
        ("query", req.query), ("requestBody", body),
        ("requestHeaders", sanitizeHeaders req.headers),
        ("statusCode", .num statusCode), ("duration", .num duration)]

/-- The success-path emission (controller lines 161–180): only POST/PUT/PATCH
reach `trackWriteRequestWithComparison`; a sanitizer or builder throw inside
the async `tap` callback is an unhandled rejection — nothing is emitted. -/
def successEmit (envApiKey : Option String) (req : ReqInfo)
    (previousCall : Option PrevCall) (statusCode duration : Int)
    (body responseData : Json) : List String :=
  if req.method ∈ (["POST", "PUT", "PATCH"] : List String) then
    match sanitizeResponse responseData with
    | .error _ => []
    | .ok respSan =>
        match PosthogService.buildWriteEventProps
            { method := req.method, path := req.path, url := req.url,
              requestBody := some body, responseBody := some respSan,
              statusCode := statusCode, userId := userIdOf req,
              duration := duration, sessionId := req.sessionId }
            previousCall with
        | .error _ => []
        | .ok _ => PosthogService.trackEmits envApiKey "api_write_request"
  else []

/-- The failure-path emission (controller lines 181–206): `trackError`, whose
event reaches `track` unless context sanitization throws. -/
def failureEmit (envApiKey : Option String) (req : ReqInfo)
    (statusCode duration : Int) (body : Json) : List String :=
  match PosthogService.sanitizeErrorContext
      (errorContextOf req body statusCode duration) with
  | .error _ => []
  | .ok _ => PosthogService.trackEmits envApiKey "error_occurred"

/-- `intercept` (controller lines 142–209), abstracted to the telemetry event
names it passes to `track`: the request body is sanitized up front (a
sanitizer throw aborts interception with no emission); on handler success the
enriched write tracking runs via `successEmit`, on failure the error funnel
runs via `failureEmit`.  `previousCall` abstracts the store retrieval's
result. -/
def interceptEmitted (envApiKey : Option String) (req : ReqInfo)
    (outcome : HandlerOutcome) (previousCall : Option PrevCall)
    (statusCode duration : Int) : List String :=
  match sanitizeBody req.body with
  | .error _ => []
  | .ok body =>
      match outcome with
      | .success responseData =>
          successEmit envApiKey req previousCall statusCode duration body responseData
      | .failure _ _ => failureEmit envApiKey req statusCode duration body

end PosthogInterceptor

/-- The interceptor's telemetry is empty, one write event (mutating method,
successful handler, nothing threw, key configured), or one error event
(failing handler, nothing threw, key configured). -/
theorem interceptEmitted_shape
    (envApiKey : Option String) (req : ReqInfo) (outcome : HandlerOutcome)
    (previousCall : Option PrevCall) (statusCode duration : Int) :
    PosthogInterceptor.interceptEmitted envApiKey req outcome previousCall
        statusCode duration = []
    ∨ (req.method ∈ (["POST", "PUT", "PATCH"] : List String)
        ∧ (∃ rd, outcome = .success rd)
        ∧ PosthogInterceptor.interceptEmitted envApiKey req outcome previousCall
            statusCode duration = ["api_write_request"])
    ∨ ((∃ n m, outcome = .failure n m)
        ∧ PosthogInterceptor.interceptEmitted envApiKey req outcome previousCall
            statusCode duration = ["error_occurred"]) := by
  cases hsb : PosthogInterceptor.sanitizeBody req.body with
  | error e =>
    left
    simp [PosthogInterceptor.interceptEmitted, hsb]
  | ok body =>
    cases outcome with
    | success rd =>
      by_cases hm : req.method ∈ (["POST", "PUT", "PATCH"] : List String)
      · cases hsr : PosthogInterceptor.sanitizeResponse rd with
        | error e =>
          left
          simp [PosthogInterceptor.interceptEmitted,
            PosthogInterceptor.successEmit, hsb, hsr, hm]
        | ok respSan =>
          cases hb : PosthogService.buildWriteEventProps
              { method := req.method, path := req.path, url := req.url,
                requestBody := some body, responseBody := some respSan,
                statusCode := statusCode, userId := PosthogInterceptor.userIdOf req,
                duration := duration, sessionId := req.sessionId } previousCall with
          | error e =>
            left
            simp [PosthogInterceptor.interceptEmitted,
              PosthogInterceptor.successEmit, hsb, hsr, hb, hm]
          | ok props =>
            by_cases hg : PosthogService.trackGuard envApiKey = true
            · left
              simp [PosthogInterceptor.interceptEmitted,
                PosthogInterceptor.successEmit, PosthogService.trackEmits,
                hsb, hsr, hb, hm, hg]
            · right; left
              refine ⟨hm, ⟨rd, rfl⟩, ?_⟩
              simp [PosthogInterceptor.interceptEmitted,
                PosthogInterceptor.successEmit, PosthogService.trackEmits,
                hsb, hsr, hb, hm, hg]
      · left
        simp [PosthogInterceptor.interceptEmitted,
          PosthogInterceptor.successEmit, hsb, hm]
    | failure n m =>
      cases hec : PosthogService.sanitizeErrorContext
          (PosthogInterceptor.errorContextOf req body statusCode duration) with
      | error e =>
        left
        simp [PosthogInterceptor.interceptEmitted,
          PosthogInterceptor.failureEmit, hsb, hec]
      | ok ctx =>
        by_cases hg : PosthogService.trackGuard envApiKey = true
        · left
          simp [PosthogInterceptor.interceptEmitted,
            PosthogInterceptor.failureEmit, PosthogService.trackEmits, hsb, hec, hg]
        · right; right
          refine ⟨⟨n, m, rfl⟩, ?_⟩
          simp [PosthogInterceptor.interceptEmitted,
            PosthogInterceptor.failureEmit, PosthogService.trackEmits, hsb, hec, hg]

/-- C7: the interceptor emits the enriched `api_write_request` event at most
once per intercepted call, and only when the method is one of POST/PUT/PATCH
and the handler completed successfully; it is never emitted for read-only or
delete methods, and a call whose handler fails produces only the canonical
error event. -/
theorem intercept_write_event_policy
    (envApiKey : Option String) (req : ReqInfo) (outcome : HandlerOutcome)
    (previousCall : Option PrevCall) (statusCode duration : Int) :
    (PosthogInterceptor.interceptEmitted envApiKey req outcome previousCall
        statusCode duration).count "api_write_request" ≤ 1
    ∧ (req.method ∉ (["POST", "PUT", "PATCH"] : List String) →
        (PosthogInterceptor.interceptEmitted envApiKey req outcome previousCall
            statusCode duration).count "api_write_request" = 0)
    ∧ (∀ n m, outcome = .failure n m →
        ∀ ev ∈ PosthogInterceptor.interceptEmitted envApiKey req outcome previousCall
            statusCode duration, ev = "error_occurred") := by
  rcases interceptEmitted_shape envApiKey req outcome previousCall statusCode duration
    with h | ⟨hm, ⟨rd, ho⟩, h⟩ | ⟨⟨n0, m0, ho⟩, h⟩
  · rw [h]
    exact ⟨by simp, fun _ => by simp, fun n m _ => by simp⟩
  · rw [h]
    refine ⟨by decide, fun hmm => absurd hm hmm, fun n m hfo => ?_⟩
    rw [ho] at hfo
    cases hfo
  · rw [h]
    refine ⟨by decide, fun _ => by decide, fun n m _ => ?_⟩
    simp

/-- A GET request with a small body. -/
def sampleReq : ReqInfo :=
  { method := "GET", url := "/items", path := "/items", query := .obj [],
    body := .obj [("name", .str "x")], headers := .obj [],
    sessionId := none, userId := none }

/-- C7 witness: a GET request emits no write event even on success, and a
failing call emits only the error event. -/
theorem intercept_write_event_policy_witness :
    (PosthogInterceptor.interceptEmitted (some "phc_k") sampleReq
        (.success (.obj [])) none 200 1).count "api_write_request" = 0
    ∧ ∀ ev ∈ PosthogInterceptor.interceptEmitted (some "phc_k") sampleReq
        (.failure "Error" "boom") none 500 1, ev = "error_occurred" := by
  have h1 := (intercept_write_event_policy (some "phc_k") sampleReq
    (.success (.obj [])) none 200 1).2.1 (by decide)
  have h2 := (intercept_write_event_policy (some "phc_k") sampleReq
    (.failure "Error" "boom") none 500 1).2.2 "Error" "boom" rfl
  exact ⟨h1, h2⟩

end PosthogRnd
